import Mathlib

/-!
Shallow embedding of `src/python/agnt/src/agnt/__init__.py` (the agnt
bootstrap launcher) and verification of its specification claims.

The launcher resolves platform and architecture tags, computes a versioned
cache directory, downloads the binary on a cache miss (writing to a
temporary file and renaming), marks it executable on POSIX, and then
launches it (process replacement off Windows, spawn-and-wait on Windows).

Modelling choices:
- A filesystem is an association list from paths (segment lists) to file
  data (byte list plus a permission mode in the POSIX bit layout).
- Host introspection (`platform.system()`, `platform.machine()`,
  `Path.home()`, the two cache-root environment variables) is a `Host`
  record; the HTTP client is a function from URL to an outcome (a status
  plus body, or a transport error), packaged with the filesystem in a
  `World`.
- Side effects (directory creation, the HTTP GET, stderr prints, the
  rename, exec/spawn) are recorded in an effect trace, and fallible
  functions return explicit result values (`Except`, or a result sum),
  mirroring Python exceptions and `sys.exit`.
- `tempfile.NamedTemporaryFile(dir=cache_dir, suffix=".tmp")` is modelled
  by an arbitrary fresh base name `tmpBase`, giving the temporary path
  `cache_dir ++ [tmpBase ++ ".tmp"]`.
- The write of the response body to the temporary file is modelled at byte
  granularity by `downloadTrace`: one intermediate filesystem state per
  written byte-count, followed by the rename state, so that the temporal
  claim about partially-written files can be stated over every
  intermediate state.
-/

/-- A filesystem path, as a list of segments. -/
abbrev FsPath := List String

/-- File contents and POSIX permission mode bits. -/
structure FileData where
  content : List Nat
  mode : Nat
deriving DecidableEq, Repr

/-- A filesystem: an association list from paths to file data. -/
abbrev FS := List (FsPath × FileData)

/-- Look up the file stored at a path. -/
def lookupFS (fs : FS) (p : FsPath) : Option FileData :=
  match fs with
  | [] => none
  | (q, d) :: rest => if q = p then some d else lookupFS rest p

/-- Remove the file at a path (no-op when absent). -/
def fsRemove (fs : FS) (p : FsPath) : FS :=
  match fs with
  | [] => []
  | (q, d) :: rest => if q = p then fsRemove rest p else (q, d) :: fsRemove rest p

/-- Create or overwrite the file at a path. -/
def fsInsert (fs : FS) (p : FsPath) (d : FileData) : FS :=
  (p, d) :: fsRemove fs p

/-- Rename `src` to `dst` (atomic replace; no-op when `src` is absent),
as `Path.rename` does on the same filesystem. -/
def fsRename (fs : FS) (src dst : FsPath) : FS :=
  match lookupFS fs src with
  | none => fs
  | some d => fsInsert (fsRemove fs src) dst d

/-- Change the permission mode of the file at a path (no-op when absent). -/
def fsChmod (fs : FS) (p : FsPath) (m : Nat) : FS :=
  match lookupFS fs p with
  | none => fs
  | some d => fsInsert fs p { content := d.content, mode := m }

/-- Host introspection: raw `platform.system()` and `platform.machine()`
strings, the home directory, and the two cache-root environment variables
the code reads (`LOCALAPPDATA`, `XDG_CACHE_HOME`; `none` means unset). -/
structure Host where
  rawSystem : String
  rawMachine : String
  home : FsPath
  envLocalAppData : Option FsPath
  envXdgCacheHome : Option FsPath

/-- Outcome of the HTTP GET: a final (post-redirect) response with status
code and body bytes, or a transport-level error. -/
inductive HttpOutcome where
  | response (status : Nat) (body : List Nat)
  | transportError (msg : String)

/-- The world a launcher invocation runs in. -/
structure World where
  host : Host
  fs : FS
  http : String → HttpOutcome

/-- Observable side effects of the launcher, in order. -/
inductive Effect where
  | mkdirp (p : FsPath)
  | httpGet (url : String)
  | printErr (msg : String)
  | renamed (src dst : FsPath)
  | execd (argv : List String)
  | spawned (argv : List String)
deriving DecidableEq, Repr

/-- `REPO = "standardbeagle/agnt"` from the source. -/
def REPO : String := "standardbeagle/agnt"

/-- `VERSION = __version__ = "0.7.12"` from the source. -/
def VERSION : String := "0.7.12"

/-- `BINARY_NAME = "agnt"` from the source. -/
def BINARY_NAME : String := "agnt"

/-- Python `str.lower()` on the raw host strings (ASCII case folding,
as `platform.system().lower()` performs on its values). -/
def strLower (s : String) : String := String.mk (s.data.map Char.toLower)

/-- `get_platform`: lowercase `platform.system()` and map to one of the
three tags, raising `RuntimeError` otherwise. -/
def get_platform (h : Host) : Except String String :=
  let system := strLower h.rawSystem
  if system = "darwin" then .ok "darwin"
  else if system = "linux" then .ok "linux"
  else if system = "windows" then .ok "windows"
  else .error ("Unsupported platform: " ++ system)

/-- `get_arch`: lowercase `platform.machine()` and map to amd64/arm64,
raising `RuntimeError` otherwise. -/
def get_arch (h : Host) : Except String String :=
  let machine := strLower h.rawMachine
  if machine = "x86_64" ∨ machine = "amd64" then .ok "amd64"
  else if machine = "arm64" ∨ machine = "aarch64" then .ok "arm64"
  else .error ("Unsupported architecture: " ++ machine)

/-- `get_binary_name`: `agnt.exe` on Windows, `agnt` elsewhere. -/
def get_binary_name (h : Host) : String :=
  if strLower h.rawSystem = "windows" then BINARY_NAME ++ ".exe" else BINARY_NAME

/-- `get_cache_dir`: pick the platform base directory (honouring
`LOCALAPPDATA` on Windows and `XDG_CACHE_HOME` on non-Windows non-macOS
hosts; a fixed `~/Library/Caches` on macOS), and append `agnt/<VERSION>`.
The `mkdir(parents=True, exist_ok=True)` side effect is recorded by the
callers in the effect trace. -/
def get_cache_dir (h : Host) : FsPath :=
  let base :=
    if strLower h.rawSystem = "windows" then
      h.envLocalAppData.getD (h.home ++ ["AppData", "Local"])
    else if strLower h.rawSystem = "darwin" then
      h.home ++ ["Library", "Caches"]
    else
      h.envXdgCacheHome.getD (h.home ++ [".cache"])
  base ++ ["agnt", VERSION]

/-- `get_download_url`: the release-asset URL built from repo, version,
platform tag, arch tag and the Windows-only `.exe` extension. -/
def get_download_url (h : Host) : Except String String := do
  let plat ← get_platform h
  let arch ← get_arch h
  let ext := if plat = "windows" then ".exe" else ""
  pure ("https://github.com/" ++ REPO ++ "/releases/download/v" ++ VERSION
    ++ "/" ++ BINARY_NAME ++ "-" ++ plat ++ "-" ++ arch ++ ext)

/-- The release-asset URL for resolved platform and arch tags (the string
`get_download_url` builds once resolution has succeeded). -/
def urlFor (plat arch : String) : String :=
  "https://github.com/" ++ REPO ++ "/releases/download/v" ++ VERSION
    ++ "/" ++ BINARY_NAME ++ "-" ++ plat ++ "-" ++ arch
    ++ (if plat = "windows" then ".exe" else "")

/-- `response.is_success`: `raise_for_status` raises exactly when the
status is outside 2xx. -/
def is_success (status : Nat) : Bool := 200 ≤ status && status < 300

/-- Mode `tempfile.NamedTemporaryFile` creates its file with on POSIX. -/
def tmpMode : Nat := 0o600

/-- The sequence of filesystem states of the download step: writing the
response body into the temporary file byte by byte (state `k` holds the
first `k` bytes), followed by the atomic rename of the complete temporary
file onto the final binary path. -/
def downloadTrace (fs : FS) (tmp_path binary_path : FsPath) (body : List Nat) : List FS :=
  ((List.range (body.length + 1)).map
      (fun k => fsInsert fs tmp_path { content := body.take k, mode := tmpMode }))
    ++ [fsRename (fsInsert fs tmp_path { content := body, mode := tmpMode }) tmp_path binary_path]

/-- The stderr lines printed by the `except httpx.HTTPError` handler of
`get_binary_path`, for download-failure message `errMsg`. -/
def downloadFailLines (errMsg : String) : List String :=
  ["Failed to download agnt: " ++ errMsg,
   "",
   "You can manually download the binary from:",
   "  https://github.com/" ++ REPO ++ "/releases/tag/v" ++ VERSION,
   "",
   "Or build from source:",
   "  git clone https://github.com/standardbeagle/agnt.git",
   "  cd agnt",
   "  make build"]

/-- How a call to `get_binary_path` ends: a returned path, process
termination via `sys.exit`, or an uncaught `RuntimeError`. -/
inductive GBPResult where
  | returned (p : FsPath)
  | exited (code : Int)
  | raised (msg : String)
deriving DecidableEq, Repr

/-- Result, final filesystem and effect trace of `get_binary_path`. -/
structure GBPOut where
  result : GBPResult
  fs : FS
  effects : List Effect
deriving Repr

/-- `str(Path)`: render a path for diagnostic messages. -/
def pathStr (p : FsPath) : String := String.intercalate "/" p

/-- `get_binary_path`: resolve the cache path; return it when the file
exists; otherwise download to a temporary file, rename, and on POSIX add
the three execute bits; on any HTTP error print the diagnostics and exit
with status 1. `tmpBase` is the fresh temporary-file base name chosen by
`tempfile.NamedTemporaryFile`. -/
def get_binary_path (w : World) (tmpBase : String) : GBPOut :=
  let cache_dir := get_cache_dir w.host
  let binary_path := cache_dir ++ [get_binary_name w.host]
  if (lookupFS w.fs binary_path).isSome = true then
    { result := .returned binary_path, fs := w.fs, effects := [.mkdirp cache_dir] }
  else
    match get_platform w.host, get_arch w.host with
    | .error m, _ => { result := .raised m, fs := w.fs, effects := [.mkdirp cache_dir] }
    | .ok _, .error m => { result := .raised m, fs := w.fs, effects := [.mkdirp cache_dir] }
    | .ok plat, .ok arch =>
      let url := urlFor plat arch
      let pre : List Effect :=
        [.mkdirp cache_dir,
         .printErr ("Downloading agnt v" ++ VERSION ++ "..."),
         .printErr ("  Platform: " ++ plat),
         .printErr ("  Architecture: " ++ arch),
         .httpGet url]
      match w.http url with
      | .transportError m =>
        { result := .exited 1, fs := w.fs,
          effects := pre ++ (downloadFailLines m).map Effect.printErr }
      | .response status body =>
        if is_success status = true then
          let tmp_path := cache_dir ++ [tmpBase ++ ".tmp"]
          let fs2 := (downloadTrace w.fs tmp_path binary_path body).getLastD w.fs
          let fs3 :=
            if strLower w.host.rawSystem = "windows" then fs2
            else
              match lookupFS fs2 binary_path with
              | some d => fsChmod fs2 binary_path (d.mode ||| 0o111)
              | none => fs2
          { result := .returned binary_path, fs := fs3,
            effects := pre ++ [.renamed tmp_path binary_path,
              .printErr ("Successfully installed agnt to " ++ pathStr binary_path)] }
        else
          { result := .exited 1, fs := w.fs,
            effects := pre ++ (downloadFailLines ("HTTP status " ++ toString status)).map Effect.printErr }

/-- Whether a permission mode permits execution by the owner
(`os.execv` / `subprocess.run` raise `PermissionError` otherwise). -/
def executableMode (m : Nat) : Bool := m.testBit 6

/-- `subprocess.CompletedProcess`: the argument vector that was run and
the child's returncode. -/
structure CompletedProcess where
  args : List String
  returncode : Int
deriving DecidableEq, Repr

/-- `subprocess.run(argv)`: raises `FileNotFoundError` when the program is
absent, `PermissionError` when it is not executable, and otherwise waits
for the child (whose exit code the environment supplies as `childCode`). -/
def subprocess_run (fs : FS) (path : FsPath) (argv : List String) (childCode : Int) :
    Except String CompletedProcess :=
  match lookupFS fs path with
  | none => .error "FileNotFoundError"
  | some d =>
    if executableMode d.mode = true then .ok { args := argv, returncode := childCode }
    else .error "PermissionError"

/-- How a call to the exported `run` ends. -/
inductive RunResult where
  | completed (cp : CompletedProcess)
  | exited (code : Int)
  | raised (msg : String)
deriving DecidableEq, Repr

/-- The exported `run(args)`: resolve the binary, then always
`subprocess.run([str(binary_path)] + (args or []))` and hand the
`CompletedProcess` back to the caller. -/
def run (w : World) (tmpBase : String) (args : Option (List String)) (childCode : Int) :
    RunResult × FS × List Effect :=
  let g := get_binary_path w tmpBase
  match g.result with
  | .exited c => (.exited c, g.fs, g.effects)
  | .raised m => (.raised m, g.fs, g.effects)
  | .returned p =>
    let argv := pathStr p :: args.getD []
    match subprocess_run g.fs p argv childCode with
    | .ok cp => (.completed cp, g.fs, g.effects ++ [.spawned argv])
    | .error m => (.raised m, g.fs, g.effects)

/-- How a call to `main` ends: `replaced` is a successful `os.execv`
(the process image is replaced and `main` never returns). -/
inductive MainOutcome where
  | replaced (path : FsPath) (argv : List String)
  | exited (code : Int)
  | raised (msg : String)
deriving DecidableEq, Repr

namespace agnt

/-- `main()`: resolve the binary, then on Windows spawn it and exit with
the child's code, elsewhere `os.execv` it; `FileNotFoundError` and
`PermissionError` print a diagnostic and exit with status 1. `argvTail`
is `sys.argv[1:]`; `interfereDelete` models an external process deleting
the binary between resolution and launch (the race the error handling
exists for). -/
def main (w : World) (tmpBase : String) (argvTail : List String) (childCode : Int)
    (interfereDelete : Bool) : MainOutcome × FS × List Effect :=
  let g := get_binary_path w tmpBase
  match g.result with
  | .exited c => (.exited c, g.fs, g.effects)
  | .raised m => (.raised m, g.fs, g.effects)
  | .returned p =>
    let fsL := if interfereDelete then fsRemove g.fs p else g.fs
    let argv := pathStr p :: argvTail
    match lookupFS fsL p with
    | none =>
      (.exited 1, fsL, g.effects ++ [.printErr ("Error: Binary not found at " ++ pathStr p)])
    | some d =>
      if executableMode d.mode = true then
        if strLower w.host.rawSystem = "windows" then
          (.exited childCode, fsL, g.effects ++ [.spawned argv])
        else
          (.replaced p argv, fsL, g.effects ++ [.execd argv])
      else
        (.exited 1, fsL,
         g.effects ++ [.printErr ("Error: Binary at " ++ pathStr p ++ " is not executable")])

end agnt

/-! ### Filesystem lemmas -/

theorem lookupFS_fsRemove (fs : FS) (p q : FsPath) :
    lookupFS (fsRemove fs p) q = if q = p then none else lookupFS fs q := by
  induction fs with
  | nil => simp [fsRemove, lookupFS]
  | cons e rest ih =>
    obtain ⟨k, d⟩ := e
    by_cases hk : k = p
    · rw [show fsRemove ((k, d) :: rest) p = fsRemove rest p from if_pos hk, ih]
      by_cases hq : q = p
      · simp [hq]
      · have hkq : ¬k = q := fun h => hq (h.symm.trans hk)
        simp [hq, lookupFS, hkq]
    · rw [show fsRemove ((k, d) :: rest) p = (k, d) :: fsRemove rest p from if_neg hk]
      by_cases hkq : k = q
      · have hq : ¬q = p := fun h => hk (hkq.trans h)
        simp [lookupFS, hkq, hq]
      · simp [lookupFS, hkq, ih]

theorem lookupFS_fsInsert (fs : FS) (p : FsPath) (d : FileData) (q : FsPath) :
    lookupFS (fsInsert fs p d) q = if p = q then some d else lookupFS fs q := by
  by_cases hq : p = q
  · simp [fsInsert, lookupFS, hq]
  · have hq2 : ¬q = p := fun h => hq h.symm
    simp [fsInsert, lookupFS, hq, lookupFS_fsRemove, hq2]

theorem lookupFS_fsRename_dst (fs : FS) (src dst : FsPath) (d : FileData)
    (hsrc : lookupFS fs src = some d) :
    lookupFS (fsRename fs src dst) dst = some d := by
  simp [fsRename, hsrc, lookupFS_fsInsert]

theorem lookupFS_fsRename_other (fs : FS) (src dst q : FsPath)
    (hq1 : q ≠ src) (hq2 : q ≠ dst) :
    lookupFS (fsRename fs src dst) q = lookupFS fs q := by
  unfold fsRename
  cases hsrc : lookupFS fs src with
  | none => rfl
  | some d =>
    rw [lookupFS_fsInsert]
    rw [if_neg (fun h => hq2 h.symm), lookupFS_fsRemove, if_neg hq1]

theorem lookupFS_fsChmod_self (fs : FS) (p : FsPath) (m : Nat) (d : FileData)
    (hp : lookupFS fs p = some d) :
    lookupFS (fsChmod fs p m) p = some { content := d.content, mode := m } := by
  simp [fsChmod, hp, lookupFS_fsInsert]

/-! ### C5: platform and architecture mapping -/

/-- C5: `get_platform` returns darwin, linux, or windows exactly when the
lowercased `platform.system()` string equals that tag, and raises an
unsupported-platform `RuntimeError` otherwise; `get_arch` returns amd64
exactly for lowercased x86_64 or amd64, arm64 exactly for lowercased
arm64 or aarch64, and raises an unsupported-architecture `RuntimeError`
otherwise. -/
theorem C5_platform_arch_mapping (h : Host) :
    ((get_platform h = .ok "darwin") ↔ strLower h.rawSystem = "darwin") ∧
    ((get_platform h = .ok "linux") ↔ strLower h.rawSystem = "linux") ∧
    ((get_platform h = .ok "windows") ↔ strLower h.rawSystem = "windows") ∧
    (strLower h.rawSystem ≠ "darwin" → strLower h.rawSystem ≠ "linux" →
      strLower h.rawSystem ≠ "windows" →
      get_platform h = .error ("Unsupported platform: " ++ strLower h.rawSystem)) ∧
    ((get_arch h = .ok "amd64") ↔
      (strLower h.rawMachine = "x86_64" ∨ strLower h.rawMachine = "amd64")) ∧
    ((get_arch h = .ok "arm64") ↔
      (strLower h.rawMachine = "arm64" ∨ strLower h.rawMachine = "aarch64")) ∧
    (strLower h.rawMachine ≠ "x86_64" → strLower h.rawMachine ≠ "amd64" →
      strLower h.rawMachine ≠ "arm64" → strLower h.rawMachine ≠ "aarch64" →
      get_arch h = .error ("Unsupported architecture: " ++ strLower h.rawMachine)) := by
  refine ⟨?_, ?_, ?_, ?_, ?_, ?_, ?_⟩
  · simp only [get_platform]; split_ifs with h1 h2 h3
    · simp [h1]
    · rw [h2]; simp
    · rw [h3]; simp
    · simp [h1]
  · simp only [get_platform]; split_ifs with h1 h2 h3
    · rw [h1]; simp
    · simp [h2]
    · rw [h3]; simp
    · simp [h2]
  · simp only [get_platform]; split_ifs with h1 h2 h3
    · rw [h1]; simp
    · rw [h2]; simp
    · simp [h3]
    · simp [h3]
  · intro n1 n2 n3; simp only [get_platform]; split_ifs <;> simp_all
  · simp only [get_arch]; split_ifs with h1 h2
    · rcases h1 with hh | hh <;> rw [hh] <;> simp
    · rcases h2 with hh | hh <;> rw [hh] <;> simp
    · simp [h1]
  · simp only [get_arch]; split_ifs with h1 h2
    · rcases h1 with hh | hh <;> rw [hh] <;> simp
    · rcases h2 with hh | hh <;> rw [hh] <;> simp
    · simp [h2]
  · intro n1 n2 n3 n4; simp only [get_arch]; split_ifs with h1 h2
    · rcases h1 with hh | hh <;> simp_all
    · rcases h2 with hh | hh <;> simp_all
    · rfl

/-- Concrete unsupported host used to witness the failure branches. -/
def hostPlan9 : Host :=
  { rawSystem := "Plan9", rawMachine := "mips", home := ["home", "u"],
    envLocalAppData := none, envXdgCacheHome := none }

/-- Witness for C5: instantiates the mapping at a concrete unsupported
host and at concrete supported strings. -/
theorem C5_platform_arch_mapping_witness :
    get_platform hostPlan9 = .error ("Unsupported platform: " ++ "plan9") ∧
    get_arch hostPlan9 = .error ("Unsupported architecture: " ++ "mips") ∧
    get_platform { hostPlan9 with rawSystem := "Darwin" } = .ok "darwin" ∧
    get_arch { hostPlan9 with rawMachine := "AARCH64" } = .ok "arm64" := by
  refine ⟨?_, ?_, ?_, ?_⟩
  · exact (C5_platform_arch_mapping hostPlan9).2.2.2.1 (by decide) (by decide) (by decide)
  · exact (C5_platform_arch_mapping hostPlan9).2.2.2.2.2.2 (by decide) (by decide)
      (by decide) (by decide)
  · exact ((C5_platform_arch_mapping { hostPlan9 with rawSystem := "Darwin" }).1).mpr (by decide)
  · exact ((C5_platform_arch_mapping { hostPlan9 with rawMachine := "AARCH64" }).2.2.2.2.2.1).mpr
      (Or.inr (by decide))

/-! ### C6: download URL -/

/-- C6: `get_download_url` is a deterministic function of the fixed repo,
pinned version, platform tag and arch tag, equal to
`https://github.com/standardbeagle/agnt/releases/download/v<version>/agnt-<plat>-<arch>`
with `.exe` appended exactly when the platform is windows; at
darwin/arm64 it equals the darwin-arm64 URL. -/
theorem C6_download_url_formula (h : Host) (plat arch : String)
    (hp : get_platform h = .ok plat) (ha : get_arch h = .ok arch) :
    get_download_url h =
      .ok ("https://github.com/standardbeagle/agnt/releases/download/v0.7.12/agnt-"
        ++ plat ++ "-" ++ arch ++ (if plat = "windows" then ".exe" else "")) ∧
    (plat = "darwin" → arch = "arm64" →
      get_download_url h =
        .ok "https://github.com/standardbeagle/agnt/releases/download/v0.7.12/agnt-darwin-arm64") := by
  have hplat : plat = "darwin" ∨ plat = "linux" ∨ plat = "windows" := by
    simp only [get_platform] at hp
    split_ifs at hp <;> simp_all
  have harch : arch = "amd64" ∨ arch = "arm64" := by
    simp only [get_arch] at ha
    split_ifs at ha <;> simp_all
  constructor
  · rcases hplat with h1 | h1 | h1 <;> rcases harch with h2 | h2 <;> subst h1 <;> subst h2 <;>
      simp only [get_download_url, hp, ha] <;> rfl
  · intro e1 e2
    subst e1; subst e2
    simp only [get_download_url, hp, ha]
    rfl

/-- Concrete darwin/arm64 host. -/
def hostMacArm : Host :=
  { rawSystem := "Darwin", rawMachine := "arm64", home := ["Users", "u"],
    envLocalAppData := none, envXdgCacheHome := none }

/-- Witness for C6 at the darwin/arm64 host of the end-to-end scenario. -/
theorem C6_download_url_formula_witness :
    get_download_url hostMacArm =
      .ok "https://github.com/standardbeagle/agnt/releases/download/v0.7.12/agnt-darwin-arm64" :=
  (C6_download_url_formula hostMacArm "darwin" "arm64" rfl rfl).2 rfl rfl

/-! ### C7: cache directory resolution -/

/-- A macOS host with the cache-home override variable set: macOS is a
POSIX-like system, yet the code ignores `XDG_CACHE_HOME` there. -/
def C7darwinHost : Host :=
  { rawSystem := "Darwin", rawMachine := "arm64", home := ["Users", "u"],
    envLocalAppData := none, envXdgCacheHome := some ["xdgcache"] }

/-- C7 counterexample: on a macOS host (a POSIX-like system) with the
cache-home environment variable set, `get_cache_dir` does not select its
base directory from that variable — the claim's "the cache-home variable
on POSIX-like systems" fails on darwin; the code uses the fixed
`~/Library/Caches` base instead. -/
theorem C7_counterexample :
    strLower C7darwinHost.rawSystem ≠ "windows" ∧
    C7darwinHost.envXdgCacheHome = some ["xdgcache"] ∧
    get_cache_dir C7darwinHost ≠ ["xdgcache"] ++ ["agnt", VERSION] ∧
    get_cache_dir C7darwinHost = ["Users", "u", "Library", "Caches", "agnt", "0.7.12"] := by
  refine ⟨by decide, rfl, by decide, rfl⟩

/-- C7 (amended): `get_cache_dir` selects its base directory from the
local-app-data variable on Windows and from the cache-home variable on
non-Windows systems other than macOS; on macOS it uses the fixed
per-user `~/Library/Caches` base with no environment override. It always
returns `<base>/agnt/<version>`, and is a pure function of the host
environment and version. -/
theorem C7_cache_dir_amended (h : Host) :
    (∀ p, strLower h.rawSystem = "windows" → h.envLocalAppData = some p →
      get_cache_dir h = p ++ ["agnt", VERSION]) ∧
    (∀ p, strLower h.rawSystem ≠ "windows" → strLower h.rawSystem ≠ "darwin" →
      h.envXdgCacheHome = some p → get_cache_dir h = p ++ ["agnt", VERSION]) ∧
    (strLower h.rawSystem = "darwin" →
      get_cache_dir h = h.home ++ ["Library", "Caches", "agnt", VERSION]) ∧
    (∃ base, get_cache_dir h = base ++ ["agnt", VERSION]) := by
  refine ⟨?_, ?_, ?_, ?_⟩
  · intro p hw he
    simp [get_cache_dir, hw, he]
  · intro p hw hd he
    simp [get_cache_dir, hw, hd, he]
  · intro hd
    have hw : strLower h.rawSystem ≠ "windows" := by rw [hd]; simp
    simp [get_cache_dir, hw, hd]
  · unfold get_cache_dir
    exact ⟨_, rfl⟩

/-- A Windows host with `LOCALAPPDATA` set. -/
def hostWin : Host :=
  { rawSystem := "Windows", rawMachine := "AMD64", home := ["C:", "Users", "u"],
    envLocalAppData := some ["C:", "Users", "u", "AppData", "Local"],
    envXdgCacheHome := none }

/-- A Linux host with `XDG_CACHE_HOME` set. -/
def hostLinuxXdg : Host :=
  { rawSystem := "Linux", rawMachine := "x86_64", home := ["home", "u"],
    envLocalAppData := none, envXdgCacheHome := some ["var", "cache"] }

/-- Witness for the amended C7 at concrete Windows, Linux and macOS
hosts. -/
theorem C7_cache_dir_amended_witness :
    get_cache_dir hostWin = ["C:", "Users", "u", "AppData", "Local", "agnt", "0.7.12"] ∧
    get_cache_dir hostLinuxXdg = ["var", "cache", "agnt", "0.7.12"] ∧
    get_cache_dir C7darwinHost = ["Users", "u", "Library", "Caches", "agnt", "0.7.12"] := by
  refine ⟨?_, ?_, ?_⟩
  · exact (C7_cache_dir_amended hostWin).1 ["C:", "Users", "u", "AppData", "Local"] (by decide) rfl
  · exact (C7_cache_dir_amended hostLinuxXdg).2.1 ["var", "cache"] (by decide) (by decide) rfl
  · exact (C7_cache_dir_amended C7darwinHost).2.2.1 (by decide)

/-! ### C1: cache hit -/

/-- C1: when a file already exists at the cache path
`<cache_dir>/<binary_name>`, `get_binary_path` returns exactly that path,
leaves the filesystem (hence the file's bytes) unchanged, and performs no
HTTP request. -/
theorem C1_cache_hit (w : World) (tmpBase : String)
    (hExists : (lookupFS w.fs (get_cache_dir w.host ++ [get_binary_name w.host])).isSome = true) :
    get_binary_path w tmpBase =
      { result := .returned (get_cache_dir w.host ++ [get_binary_name w.host]),
        fs := w.fs,
        effects := [.mkdirp (get_cache_dir w.host)] } ∧
    (get_binary_path w tmpBase).fs = w.fs ∧
    ∀ url, Effect.httpGet url ∉ (get_binary_path w tmpBase).effects := by
  have h1 : get_binary_path w tmpBase =
      { result := .returned (get_cache_dir w.host ++ [get_binary_name w.host]),
        fs := w.fs,
        effects := [.mkdirp (get_cache_dir w.host)] } := by
    simp [get_binary_path, hExists]
  refine ⟨h1, by rw [h1], ?_⟩
  intro url
  rw [h1]
  simp

/-- The cache path of the plain Linux host. -/
def linuxBinPath : FsPath := ["home", "u", ".cache", "agnt", "0.7.12", "agnt"]

/-- A world whose cache already holds a binary, and whose network
transport always fails (so any HTTP attempt would be visible). -/
def cachedWorld : World :=
  { host := { rawSystem := "Linux", rawMachine := "x86_64", home := ["home", "u"],
              envLocalAppData := none, envXdgCacheHome := none },
    fs := [(linuxBinPath, { content := [1, 2, 3], mode := 0o755 })],
    http := fun _ => .transportError "offline" }

/-- Witness for C1 at a concrete pre-populated cache. -/
theorem C1_cache_hit_witness :
    get_binary_path cachedWorld "tmp0" =
      { result := .returned linuxBinPath,
        fs := [(linuxBinPath, { content := [1, 2, 3], mode := 0o755 })],
        effects := [.mkdirp ["home", "u", ".cache", "agnt", "0.7.12"]] } :=
  (C1_cache_hit cachedWorld "tmp0" (by decide)).1

/-! ### C8: execute bits after download -/

theorem testBit_execBits (i : Nat) (h0 : i ≠ 0) (h3 : i ≠ 3) (h6 : i ≠ 6) :
    Nat.testBit 0o111 i = false := by
  rcases Nat.lt_or_ge i 7 with hlt | hge
  · interval_cases i <;> revert h0 h3 h6 <;> decide
  · exact Nat.testBit_eq_false_of_lt
      (lt_of_lt_of_le (by decide) (Nat.pow_le_pow_right (by decide) hge))

theorem get_binary_name_ne_tmp (h : Host) (tmpBase : String) :
    get_binary_name h ≠ tmpBase ++ ".tmp" := by
  intro hEq
  have hlast := congrArg (fun s => s.data.getLast?) hEq
  simp only at hlast
  have htmp : (tmpBase ++ ".tmp").data.getLast? = some 'p' := by
    rw [String.data_append, show (".tmp").data = ['.', 't', 'm'] ++ ['p'] from rfl,
      ← List.append_assoc]
    exact List.getLast?_concat _
  rw [htmp] at hlast
  unfold get_binary_name at hlast
  split_ifs at hlast
  · exact absurd hlast (by decide)
  · exact absurd hlast (by decide)

theorem binPath_ne_tmpPath (h : Host) (tmpBase : String) :
    get_cache_dir h ++ [get_binary_name h] ≠ get_cache_dir h ++ [tmpBase ++ ".tmp"] := by
  intro hEq
  have h2 := List.append_cancel_left hEq
  simp only [List.cons.injEq, and_true] at h2
  exact get_binary_name_ne_tmp h tmpBase h2

theorem downloadTrace_getLastD (fs : FS) (tmp_path binary_path : FsPath)
    (body : List Nat) (d : FS) :
    (downloadTrace fs tmp_path binary_path body).getLastD d =
      fsRename (fsInsert fs tmp_path { content := body, mode := tmpMode })
        tmp_path binary_path := by
  unfold downloadTrace
  exact List.getLastD_concat _ _ _

/-- Full characterisation of `get_binary_path` on the successful-download
POSIX branch: cache miss, resolved tags, 2xx response. -/
theorem get_binary_path_success_posix (w : World) (tmpBase plat arch : String)
    (status : Nat) (body : List Nat)
    (hAbsent : lookupFS w.fs (get_cache_dir w.host ++ [get_binary_name w.host]) = none)
    (hp : get_platform w.host = .ok plat) (ha : get_arch w.host = .ok arch)
    (hw : strLower w.host.rawSystem ≠ "windows")
    (hresp : w.http (urlFor plat arch) = .response status body)
    (hst : is_success status = true) :
    get_binary_path w tmpBase =
      { result := .returned (get_cache_dir w.host ++ [get_binary_name w.host]),
        fs := fsChmod
          (fsRename
            (fsInsert w.fs (get_cache_dir w.host ++ [tmpBase ++ ".tmp"])
              { content := body, mode := tmpMode })
            (get_cache_dir w.host ++ [tmpBase ++ ".tmp"])
            (get_cache_dir w.host ++ [get_binary_name w.host]))
          (get_cache_dir w.host ++ [get_binary_name w.host]) (tmpMode ||| 0o111),
        effects :=
          [.mkdirp (get_cache_dir w.host),
           .printErr ("Downloading agnt v" ++ VERSION ++ "..."),
           .printErr ("  Platform: " ++ plat),
           .printErr ("  Architecture: " ++ arch),
           .httpGet (urlFor plat arch),
           .renamed (get_cache_dir w.host ++ [tmpBase ++ ".tmp"])
             (get_cache_dir w.host ++ [get_binary_name w.host]),
           .printErr ("Successfully installed agnt to "
             ++ pathStr (get_cache_dir w.host ++ [get_binary_name w.host]))] } := by
  have hsrc : lookupFS
      (fsInsert w.fs (get_cache_dir w.host ++ [tmpBase ++ ".tmp"])
        { content := body, mode := tmpMode })
      (get_cache_dir w.host ++ [tmpBase ++ ".tmp"]) =
      some { content := body, mode := tmpMode } := by
    rw [lookupFS_fsInsert]
    simp
  have hdst : lookupFS
      (fsRename
        (fsInsert w.fs (get_cache_dir w.host ++ [tmpBase ++ ".tmp"])
          { content := body, mode := tmpMode })
        (get_cache_dir w.host ++ [tmpBase ++ ".tmp"])
        (get_cache_dir w.host ++ [get_binary_name w.host]))
      (get_cache_dir w.host ++ [get_binary_name w.host]) =
      some { content := body, mode := tmpMode } :=
    lookupFS_fsRename_dst _ _ _ _ hsrc
  simp only [get_binary_path, hAbsent, Option.isSome_none, Bool.false_eq_true, if_false,
    hp, ha, hresp, hst, if_true, downloadTrace_getLastD, hdst, if_neg hw]
  simp

/-- C8: on every non-Windows platform, after the temporary file is renamed
to the final binary path, `get_binary_path` sets the owner, group and
other execute bits on the final file — the new mode is the old mode (the
mode the renamed file carried) bitwise-or the three execute bits — and
every other mode bit, and the content, are unchanged. -/
theorem C8_exec_bits (w : World) (tmpBase plat arch : String)
    (status : Nat) (body : List Nat)
    (hAbsent : lookupFS w.fs (get_cache_dir w.host ++ [get_binary_name w.host]) = none)
    (hp : get_platform w.host = .ok plat) (ha : get_arch w.host = .ok arch)
    (hw : strLower w.host.rawSystem ≠ "windows")
    (hresp : w.http (urlFor plat arch) = .response status body)
    (hst : is_success status = true) :
    lookupFS (get_binary_path w tmpBase).fs
        (get_cache_dir w.host ++ [get_binary_name w.host]) =
      some { content := body, mode := tmpMode ||| 0o111 } ∧
    (∀ i, i ≠ 0 → i ≠ 3 → i ≠ 6 →
      (tmpMode ||| 0o111).testBit i = tmpMode.testBit i) ∧
    (tmpMode ||| 0o111).testBit 0 = true ∧
    (tmpMode ||| 0o111).testBit 3 = true ∧
    (tmpMode ||| 0o111).testBit 6 = true := by
  have hmain := get_binary_path_success_posix w tmpBase plat arch status body
    hAbsent hp ha hw hresp hst
  refine ⟨?_, ?_, by decide, by decide, by decide⟩
  · rw [hmain]
    exact lookupFS_fsChmod_self _ _ _ { content := body, mode := tmpMode }
      (lookupFS_fsRename_dst _ _ _ _ (by rw [lookupFS_fsInsert]; simp))
  · intro i h0 h3 h6
    rw [Nat.testBit_lor, testBit_execBits i h0 h3 h6, Bool.or_false]

/-- An empty-cache Linux world whose HTTP GET succeeds with body
`[1, 2, 3]`. -/
def dlWorld : World :=
  { host := { rawSystem := "Linux", rawMachine := "x86_64", home := ["home", "u"],
              envLocalAppData := none, envXdgCacheHome := none },
    fs := [],
    http := fun _ => .response 200 [1, 2, 3] }

/-- Witness for C8: the concrete downloaded file carries mode 0o711. -/
theorem C8_exec_bits_witness :
    lookupFS (get_binary_path dlWorld "tmp0").fs linuxBinPath =
      some { content := [1, 2, 3], mode := 0o711 } :=
  (C8_exec_bits dlWorld "tmp0" "linux" "amd64" 200 [1, 2, 3]
    rfl rfl rfl (by decide) rfl rfl).1

/-! ### C2: atomic download via temporary file -/

/-- C2: during a download the response body is written (byte by byte)
only into the temporary file, which lives inside the same cache
directory; the canonical binary path is touched only by the final atomic
rename. Hence at every intermediate state before the rename the canonical
path holds no file at all, after the rename it holds exactly the complete
body, and so at no reachable state of the download does the canonical
binary path hold a partially-written file. -/
theorem C2_atomic_download (fs : FS) (cache_dir : FsPath) (tmpBase name : String)
    (body : List Nat)
    (hAbsent : lookupFS fs (cache_dir ++ [name]) = none)
    (hname : name ≠ tmpBase ++ ".tmp") :
    (cache_dir ++ [tmpBase ++ ".tmp"]).dropLast = cache_dir ∧
    (∀ s ∈ (downloadTrace fs (cache_dir ++ [tmpBase ++ ".tmp"])
        (cache_dir ++ [name]) body).dropLast,
      lookupFS s (cache_dir ++ [name]) = none ∧
      ∃ k, k ≤ body.length ∧
        lookupFS s (cache_dir ++ [tmpBase ++ ".tmp"]) =
          some { content := body.take k, mode := tmpMode }) ∧
    (downloadTrace fs (cache_dir ++ [tmpBase ++ ".tmp"])
        (cache_dir ++ [name]) body).getLastD fs =
      fsRename
        (fsInsert fs (cache_dir ++ [tmpBase ++ ".tmp"])
          { content := body, mode := tmpMode })
        (cache_dir ++ [tmpBase ++ ".tmp"]) (cache_dir ++ [name]) ∧
    lookupFS ((downloadTrace fs (cache_dir ++ [tmpBase ++ ".tmp"])
        (cache_dir ++ [name]) body).getLastD fs) (cache_dir ++ [name]) =
      some { content := body, mode := tmpMode } ∧
    (∀ s ∈ downloadTrace fs (cache_dir ++ [tmpBase ++ ".tmp"])
        (cache_dir ++ [name]) body,
      lookupFS s (cache_dir ++ [name]) = none ∨
      lookupFS s (cache_dir ++ [name]) = some { content := body, mode := tmpMode }) := by
  have hpath : cache_dir ++ [name] ≠ cache_dir ++ [tmpBase ++ ".tmp"] := by
    intro hEq
    have h2 := List.append_cancel_left hEq
    simp only [List.cons.injEq, and_true] at h2
    exact hname h2
  have hmid : ∀ s ∈ (List.range (body.length + 1)).map
      (fun k => fsInsert fs (cache_dir ++ [tmpBase ++ ".tmp"])
        { content := body.take k, mode := tmpMode }),
      lookupFS s (cache_dir ++ [name]) = none ∧
      ∃ k, k ≤ body.length ∧
        lookupFS s (cache_dir ++ [tmpBase ++ ".tmp"]) =
          some { content := body.take k, mode := tmpMode } := by
    intro s hs
    obtain ⟨k, hk, hks⟩ := List.mem_map.mp hs
    refine hks ▸ ⟨?_, k, Nat.lt_succ_iff.mp (List.mem_range.mp hk), ?_⟩
    · rw [lookupFS_fsInsert, if_neg (fun hh => hpath hh.symm), hAbsent]
    · rw [lookupFS_fsInsert, if_pos rfl]
  have hdrop : (downloadTrace fs (cache_dir ++ [tmpBase ++ ".tmp"])
      (cache_dir ++ [name]) body).dropLast =
      (List.range (body.length + 1)).map
        (fun k => fsInsert fs (cache_dir ++ [tmpBase ++ ".tmp"])
          { content := body.take k, mode := tmpMode }) := by
    unfold downloadTrace
    exact List.dropLast_concat
  have hlastEq := downloadTrace_getLastD fs (cache_dir ++ [tmpBase ++ ".tmp"])
    (cache_dir ++ [name]) body fs
  have hlastLook : lookupFS ((downloadTrace fs (cache_dir ++ [tmpBase ++ ".tmp"])
      (cache_dir ++ [name]) body).getLastD fs) (cache_dir ++ [name]) =
      some { content := body, mode := tmpMode } := by
    rw [hlastEq]
    exact lookupFS_fsRename_dst _ _ _ _ (by rw [lookupFS_fsInsert]; simp)
  refine ⟨List.dropLast_concat, ?_, hlastEq, hlastLook, ?_⟩
  · rw [hdrop]
    exact hmid
  · intro s hs
    unfold downloadTrace at hs
    rcases List.mem_append.mp hs with hmem | hmem
    · exact Or.inl (hmid s hmem).1
    · right
      rw [List.mem_singleton.mp hmem]
      exact lookupFS_fsRename_dst _ _ _ _ (by rw [lookupFS_fsInsert]; simp)

/-- Witness for C2 at a concrete two-byte download into an empty cache. -/
theorem C2_atomic_download_witness :
    lookupFS ((downloadTrace [] (["c"] ++ ["t" ++ ".tmp"]) (["c"] ++ ["agnt"]) [9, 8]).getLastD [])
        (["c"] ++ ["agnt"]) = some { content := [9, 8], mode := tmpMode } :=
  (C2_atomic_download [] ["c"] "t" "agnt" [9, 8] rfl (by decide)).2.2.2.1

/-! ### C3: download failure handling -/

/-- C3: on a cache miss, for every non-success HTTP status and for every
transport error, `get_binary_path` prints diagnostics to stderr including
the manual-download URL and the build-from-source instructions, then
exits the process with status 1; it never returns a path to the caller,
and the filesystem is unchanged, so no file is left at the final binary
path. -/
theorem C3_download_failure (w : World) (tmpBase plat arch : String)
    (hAbsent : lookupFS w.fs (get_cache_dir w.host ++ [get_binary_name w.host]) = none)
    (hp : get_platform w.host = .ok plat) (ha : get_arch w.host = .ok arch)
    (hFail : (∃ m, w.http (urlFor plat arch) = .transportError m) ∨
      (∃ status body, w.http (urlFor plat arch) = .response status body ∧
        is_success status = false)) :
    (get_binary_path w tmpBase).result = .exited 1 ∧
    (∀ p, (get_binary_path w tmpBase).result ≠ .returned p) ∧
    (get_binary_path w tmpBase).fs = w.fs ∧
    lookupFS (get_binary_path w tmpBase).fs
      (get_cache_dir w.host ++ [get_binary_name w.host]) = none ∧
    (∃ m, (get_binary_path w tmpBase).effects =
      [.mkdirp (get_cache_dir w.host),
       .printErr ("Downloading agnt v" ++ VERSION ++ "..."),
       .printErr ("  Platform: " ++ plat),
       .printErr ("  Architecture: " ++ arch),
       .httpGet (urlFor plat arch)] ++ (downloadFailLines m).map Effect.printErr) ∧
    Effect.printErr ("  https://github.com/" ++ REPO ++ "/releases/tag/v" ++ VERSION)
      ∈ (get_binary_path w tmpBase).effects ∧
    Effect.printErr "  git clone https://github.com/standardbeagle/agnt.git"
      ∈ (get_binary_path w tmpBase).effects ∧
    Effect.printErr "  make build" ∈ (get_binary_path w tmpBase).effects := by
  have hmain : ∃ m, get_binary_path w tmpBase =
      { result := .exited 1, fs := w.fs,
        effects :=
          [.mkdirp (get_cache_dir w.host),
           .printErr ("Downloading agnt v" ++ VERSION ++ "..."),
           .printErr ("  Platform: " ++ plat),
           .printErr ("  Architecture: " ++ arch),
           .httpGet (urlFor plat arch)] ++ (downloadFailLines m).map Effect.printErr } := by
    rcases hFail with ⟨m, hm⟩ | ⟨status, body, hm, hs⟩
    · refine ⟨m, ?_⟩
      simp only [get_binary_path, hAbsent, Option.isSome_none, Bool.false_eq_true, if_false,
        hp, ha, hm]
    · refine ⟨"HTTP status " ++ toString status, ?_⟩
      simp only [get_binary_path, hAbsent, Option.isSome_none, Bool.false_eq_true, if_false,
        hp, ha, hm, hs]
  obtain ⟨m, hm⟩ := hmain
  rw [hm]
  refine ⟨rfl, fun p => by simp, rfl, hAbsent, ⟨m, rfl⟩, ?_, ?_, ?_⟩ <;>
    simp [downloadFailLines]

/-- An empty-cache Linux world whose HTTP GET yields status 404. -/
def http404World : World :=
  { host := { rawSystem := "Linux", rawMachine := "x86_64", home := ["home", "u"],
              envLocalAppData := none, envXdgCacheHome := none },
    fs := [],
    http := fun _ => .response 404 [] }

/-- Witness for C3 at a concrete simulated HTTP 404. -/
theorem C3_download_failure_witness :
    (get_binary_path http404World "tmp0").result = .exited 1 ∧
    lookupFS (get_binary_path http404World "tmp0").fs linuxBinPath = none := by
  have h := C3_download_failure http404World "tmp0" "linux" "amd64" rfl rfl rfl
    (Or.inr ⟨404, [], rfl, rfl⟩)
  exact ⟨h.1, h.2.2.2.1⟩

/-! ### C4: argument forwarding and exec/spawn split in main -/

/-- C4: `main` forwards `sys.argv[1:]` positionally unmodified to the
binary. Off Windows it replaces the process image via `os.execv`
(never returning on success); on Windows it spawns the binary as a child,
waits, and exits with the child's exact exit code. -/
theorem C4_main_forwards (w : World) (tmpBase : String) (argvTail : List String)
    (childCode : Int) (bpath : FsPath) (d : FileData)
    (hres : (get_binary_path w tmpBase).result = .returned bpath)
    (hfile : lookupFS (get_binary_path w tmpBase).fs bpath = some d)
    (hexec : executableMode d.mode = true) :
    (strLower w.host.rawSystem ≠ "windows" →
      agnt.main w tmpBase argvTail childCode false =
        (.replaced bpath (pathStr bpath :: argvTail),
         (get_binary_path w tmpBase).fs,
         (get_binary_path w tmpBase).effects ++ [.execd (pathStr bpath :: argvTail)])) ∧
    (strLower w.host.rawSystem = "windows" →
      agnt.main w tmpBase argvTail childCode false =
        (.exited childCode,
         (get_binary_path w tmpBase).fs,
         (get_binary_path w tmpBase).effects ++ [.spawned (pathStr bpath :: argvTail)])) := by
  constructor
  · intro hw
    simp only [agnt.main, hres, Bool.false_eq_true, if_false, hfile, hexec, if_true,
      if_neg hw]
  · intro hw
    simp only [agnt.main, hres, Bool.false_eq_true, if_false, hfile, hexec, if_true,
      if_pos hw]

/-- The cache path of the Windows host with `LOCALAPPDATA` set. -/
def winBinPath : FsPath :=
  ["C:", "Users", "u", "AppData", "Local", "agnt", "0.7.12", "agnt.exe"]

/-- A Windows world whose cache already holds the binary. -/
def cachedWinWorld : World :=
  { host := hostWin,
    fs := [(winBinPath, { content := [1], mode := 0o755 })],
    http := fun _ => .transportError "offline" }

/-- Witness for C4: concrete exec on Linux and spawn-and-exit on
Windows, both forwarding the end-to-end argument list unmodified. -/
theorem C4_main_forwards_witness :
    agnt.main cachedWorld "tmp0" ["run", "claude"] 7 false =
      (.replaced linuxBinPath (pathStr linuxBinPath :: ["run", "claude"]),
       cachedWorld.fs,
       [.mkdirp ["home", "u", ".cache", "agnt", "0.7.12"],
        .execd (pathStr linuxBinPath :: ["run", "claude"])]) ∧
    agnt.main cachedWinWorld "tmp0" ["run", "claude"] 7 false =
      (.exited 7,
       cachedWinWorld.fs,
       [.mkdirp ["C:", "Users", "u", "AppData", "Local", "agnt", "0.7.12"],
        .spawned (pathStr winBinPath :: ["run", "claude"])]) := by
  constructor
  · exact (C4_main_forwards cachedWorld "tmp0" ["run", "claude"] 7 linuxBinPath
      { content := [1, 2, 3], mode := 0o755 } rfl rfl (by decide)).1 (by decide)
  · exact (C4_main_forwards cachedWinWorld "tmp0" ["run", "claude"] 7 winBinPath
      { content := [1], mode := 0o755 } rfl rfl (by decide)).2 (by decide)

/-! ### C9: launch-time failures in main -/

/-- C9: if the binary path no longer exists at launch time
(`FileNotFoundError`) or its permission bits do not permit execution
(`PermissionError`), `main` prints a diagnostic naming the path to stderr
and exits with status 1, with no retry (the single effect trace ends
there). -/
theorem C9_launch_errors (w : World) (tmpBase : String) (argvTail : List String)
    (childCode : Int) (bpath : FsPath)
    (hres : (get_binary_path w tmpBase).result = .returned bpath) :
    agnt.main w tmpBase argvTail childCode true =
      (.exited 1, fsRemove (get_binary_path w tmpBase).fs bpath,
       (get_binary_path w tmpBase).effects
         ++ [.printErr ("Error: Binary not found at " ++ pathStr bpath)]) ∧
    (∀ d, lookupFS (get_binary_path w tmpBase).fs bpath = some d →
      executableMode d.mode = false →
      agnt.main w tmpBase argvTail childCode false =
        (.exited 1, (get_binary_path w tmpBase).fs,
         (get_binary_path w tmpBase).effects
           ++ [.printErr ("Error: Binary at " ++ pathStr bpath ++ " is not executable")])) := by
  constructor
  · have hnone : lookupFS (fsRemove (get_binary_path w tmpBase).fs bpath) bpath = none := by
      rw [lookupFS_fsRemove, if_pos rfl]
    simp only [agnt.main, hres, if_true, hnone]
  · intro d hd hx
    simp only [agnt.main, hres, Bool.false_eq_true, if_false, hd, hx]

/-- A Linux world whose cached binary lacks all execute bits. -/
def cachedNoExecWorld : World :=
  { host := { rawSystem := "Linux", rawMachine := "x86_64", home := ["home", "u"],
              envLocalAppData := none, envXdgCacheHome := none },
    fs := [(linuxBinPath, { content := [1], mode := 0o644 })],
    http := fun _ => .transportError "offline" }

/-- Witness for C9: a vanished binary and a non-executable binary both
exit with status 1 and print the path-naming diagnostic. -/
theorem C9_launch_errors_witness :
    agnt.main cachedWorld "tmp1" [] 0 true =
      (.exited 1, [],
       [.mkdirp ["home", "u", ".cache", "agnt", "0.7.12"],
        .printErr ("Error: Binary not found at " ++ pathStr linuxBinPath)]) ∧
    agnt.main cachedNoExecWorld "tmp1" [] 0 false =
      (.exited 1, cachedNoExecWorld.fs,
       [.mkdirp ["home", "u", ".cache", "agnt", "0.7.12"],
        .printErr ("Error: Binary at " ++ pathStr linuxBinPath ++ " is not executable")]) := by
  constructor
  · exact (C9_launch_errors cachedWorld "tmp1" [] 0 linuxBinPath rfl).1
  · exact (C9_launch_errors cachedNoExecWorld "tmp1" [] 0 linuxBinPath rfl).2
      { content := [1], mode := 0o644 } rfl (by decide)

/-! ### C10: the exported run always spawns -/

/-- C10: the exported `run` resolves the binary via `get_binary_path` and
then always spawns it as a child — the appended effect is a spawn, never
an exec, with no platform branch — with argument vector
`[str(binary_path)] + (args or [])` (so `args = none` behaves as the
empty list), waits, and returns the `CompletedProcess` carrying the
child's exact returncode to the caller instead of exiting the launcher,
whatever that returncode is. -/
theorem C10_run_spawns (w : World) (tmpBase : String) (args : Option (List String))
    (childCode : Int) (bpath : FsPath) (d : FileData)
    (hres : (get_binary_path w tmpBase).result = .returned bpath)
    (hfile : lookupFS (get_binary_path w tmpBase).fs bpath = some d)
    (hexec : executableMode d.mode = true) :
    run w tmpBase args childCode =
      (.completed { args := pathStr bpath :: args.getD [], returncode := childCode },
       (get_binary_path w tmpBase).fs,
       (get_binary_path w tmpBase).effects
         ++ [.spawned (pathStr bpath :: args.getD [])]) ∧
    ∀ c, (run w tmpBase args childCode).1 ≠ .exited c := by
  have hmain : run w tmpBase args childCode =
      (.completed { args := pathStr bpath :: args.getD [], returncode := childCode },
       (get_binary_path w tmpBase).fs,
       (get_binary_path w tmpBase).effects
         ++ [.spawned (pathStr bpath :: args.getD [])]) := by
    simp only [run, hres, subprocess_run, hfile, hexec, if_true]
  refine ⟨hmain, fun c => by rw [hmain]; simp⟩

/-- Witness for C10: `args = none` and a negative child exit code still
produce a returned `CompletedProcess`. -/
theorem C10_run_spawns_witness :
    run cachedWorld "tmp2" none (-3) =
      (.completed { args := [pathStr linuxBinPath], returncode := -3 },
       cachedWorld.fs,
       [.mkdirp ["home", "u", ".cache", "agnt", "0.7.12"],
        .spawned [pathStr linuxBinPath]]) :=
  (C10_run_spawns cachedWorld "tmp2" none (-3) linuxBinPath
    { content := [1, 2, 3], mode := 0o755 } rfl rfl (by decide)).1
